import Mathlib

/-!
Shallow embedding of the boltdb-benchmarks storage strategies
(src/strategy/binary.go, src/strategy/binary_with_names.go,
src/strategy/multi_kv.go, src/strategy/strategy_variant.go).

Modelling conventions:
* Go byte strings are `List Nat` (each element < 256 in every reachable state).
* Go `float64`/`float32` values are dyadic rationals (`Fl`).  Both hand-written
  binary codecs store floats by their IEEE bit pattern, which is lossless, so a
  token carrying the rational value is a faithful abstraction.  The one float
  arithmetic operation, `sum += v`, is IEEE-754 double addition: the exact sum
  rounded to the nearest float64 (`Fl.add`).  The lossy Go conversions
  `uint64(f)` / `float64(u)` used by the MultiKV layout are modelled
  explicitly (`goUint64OfFloat`, `goFloatOfNat`).
* The byte buffers produced by `encoding/binary` writes are abstracted as lists
  of typed tokens (`Prim`), one token per `binary.Write`/`WriteString` call.
  Every buffer decoded in a theorem below is token-aligned (it is either an
  encoder output, empty, or a deliberately malformed token list), so reads at
  token granularity coincide with Go's byte-granularity reads, including the
  `bytes.Reader` end-of-buffer behaviour (a reader whose remaining byte width
  is zero reports `io.EOF`).
* A bbolt bucket is an association list sorted by `bytes.Compare` on keys;
  `Put` is ordered insert/replace, `Get` is lookup, and a cursor iteration
  starting at `Seek(k)` is the sorted suffix of entries with key at least `k`.
* `Outcome` is the result of a Go call: `ok` (nil error), `err` (a non-nil
  error, classified by the `fmt.Errorf` site), or `crash` (a runtime panic,
  e.g. a failed bare type assertion or a nil-pointer dereference).  Since
  writes in these strategies cannot fail at the store level, write paths that
  cannot error or panic return the new store directly.
-/

namespace BoltBench

/-! ## Machine integer helpers -/

/-- Go conversion `uint64(i)` for `i : int64`: two's-complement value. -/
def wrapU64 (i : Int) : Nat := (i % (2 ^ 64)).toNat

/-- Go conversion `int64(n)` for `n : uint64`: two's-complement reading. -/
def toInt64 (n : Nat) : Int :=
  if n < 2 ^ 63 then (n : Int) else (n : Int) - 2 ^ 64

/-- Go conversion `int32(n)`: wrap a natural number into the int32 range
(used for `int32(len(s))` in the codecs). -/
def toInt32 (n : Nat) : Int :=
  if n % 2 ^ 32 < 2 ^ 31 then ((n % 2 ^ 32 : Nat) : Int)
  else ((n % 2 ^ 32 : Nat) : Int) - 2 ^ 32

/-- Big-endian fixed-width byte encoding, most significant byte first
(`binary.BigEndian.PutUint64` is `beW 8`). -/
def beW : Nat → Nat → List Nat
  | 0, _ => []
  | w + 1, n => (n / 256 ^ w) :: beW w (n % 256 ^ w)

/-- Key bytes for an id: `binary.BigEndian.PutUint64(key, uint64(id))`. -/
def be8 (i : Int) : List Nat := beW 8 (wrapU64 i)

/-- Little-endian fixed-width byte encoding, least significant byte first
(`binary.LittleEndian.PutUint64` is `leW 8`, `PutUint32` is `leW 4`). -/
def leW : Nat → Nat → List Nat
  | 0, _ => []
  | w + 1, n => (n % 256) :: leW w (n / 256)

/-- Go `binary.LittleEndian.Uint64(data)`: reads the first 8 bytes; panics
(`none`) when fewer than 8 bytes are present. -/
def leU64 : List Nat → Option Nat
  | b0 :: b1 :: b2 :: b3 :: b4 :: b5 :: b6 :: b7 :: _ =>
      some (b0 + 256 * (b1 + 256 * (b2 + 256 * (b3 + 256 * (b4 + 256 * (b5 + 256 * (b6 + 256 * b7)))))))
  | _ => none

/-- Go `binary.LittleEndian.Uint32(data)`: first 4 bytes, panic (`none`) if short. -/
def leU32 : List Nat → Option Nat
  | b0 :: b1 :: b2 :: b3 :: _ => some (b0 + 256 * (b1 + 256 * (b2 + 256 * b3)))
  | _ => none

/-! ## Floats as dyadic rationals

Every finite IEEE-754 `float64`/`float32` value is a dyadic rational, so a
float is modelled as a mantissa/exponent pair `m / 2^e`, kept in the
canonical form where the mantissa is odd or the exponent zero, making
structural equality coincide with value equality.  The only float arithmetic
the strategies perform is `sum += v`, modelled as `Fl.add`: the exact dyadic
sum rounded to the nearest float64 (round-to-nearest, ties-to-even, with the
subnormal grid bottoming out at `2^-1074`), exactly IEEE-754 double addition
for every operation whose result stays inside the finite float64 range.
Infinities and NaNs are not modelled; the theorems that sum floats restrict
their inputs so that no intermediate result can leave the finite range. -/

/-- An exact binary floating-point value `m / 2^e`. -/
structure Fl where
  m : Int
  e : Nat
deriving DecidableEq, Repr

/-- Canonical form: divide out factors of two from the mantissa. -/
def Fl.normAux : Int → Nat → Fl
  | m, 0 => ⟨m, 0⟩
  | m, e + 1 => if m % 2 = 0 then Fl.normAux (m / 2) e else ⟨m, e + 1⟩

def Fl.norm (q : Fl) : Fl := Fl.normAux q.m q.e

/-- Number of binary digits of a natural number (0 for 0).  The first
argument is fuel bounding the recursion depth; `bitLen` supplies `n` itself,
which always suffices. -/
def bitLenAux : Nat → Nat → Nat
  | 0, _ => 0
  | fuel + 1, n => if n = 0 then 0 else bitLenAux fuel (n / 2) + 1

def bitLen (n : Nat) : Nat := bitLenAux n n

/-- Round an exact dyadic value to the nearest IEEE-754 float64
(round-to-nearest, ties-to-even).  The unit in the last place is
`2^(E-52)` for a value in `[2^E, 2^(E+1))`, bottoming out at the subnormal
grid `2^-1074`.  Values already on their grid — in particular every finite
float64 — are returned unchanged (normalised).  Magnitudes at or above
`2^1024` would be an infinity in IEEE-754; they are returned rounded but
finite here, so results are faithful to Go only below that bound, which the
summation theorems' hypotheses guarantee. -/
def f64round (q : Fl) : Fl :=
  let n := q.m.natAbs
  if n = 0 then ⟨0, 0⟩
  else
    let E : Int := (bitLen n : Int) - 1 - (q.e : Int)
    let u : Int := max (E - 52) (-1074)
    let d : Int := (q.e : Int) + u
    if d ≤ 0 then Fl.norm q
    else
      let dn := d.toNat
      let h := n / 2 ^ dn
      let r := n % 2 ^ dn
      let k :=
        if 2 * r < 2 ^ dn then h
        else if 2 ^ dn < 2 * r then h + 1
        else if h % 2 = 0 then h else h + 1
      let signedK : Int := if q.m < 0 then -(k : Int) else (k : Int)
      if u ≤ 0 then Fl.norm ⟨signedK, (-u).toNat⟩
      else Fl.norm ⟨signedK * 2 ^ u.toNat, 0⟩

/-- Exact addition of two dyadic values (the infinitely precise sum). -/
def Fl.addExact (a b : Fl) : Fl :=
  Fl.norm ⟨a.m * 2 ^ (max a.e b.e - a.e) + b.m * 2 ^ (max a.e b.e - b.e), max a.e b.e⟩

/-- Go float64 addition (`sum += v`): the exact sum rounded to the nearest
float64. -/
def Fl.add (a b : Fl) : Fl := f64round (Fl.addExact a b)

instance : Add Fl := ⟨Fl.add⟩

/-- The float value of an integer (exact; Go rounds above `2^53`). -/
def Fl.ofInt (n : Int) : Fl := ⟨n, 0⟩

instance : Zero Fl := ⟨⟨0, 0⟩⟩

/-- Truncation toward zero, as Go's float-to-integer conversions do. -/
def Fl.trunc (q : Fl) : Int := q.m.tdiv (2 ^ q.e)

/-- Go `uint64(f)` for `f : float64`.  For `0 ≤ f < 2^64` this truncates toward
zero; for other values the Go spec leaves the result implementation-dependent
and we model the amd64 behaviour (two's-complement wrap of the truncation). -/
def goUint64OfFloat (q : Fl) : Nat := wrapU64 q.trunc

/-- Go `uint32(f)` for `f : float32` (same caveats as `goUint64OfFloat`). -/
def goUint32OfFloat (q : Fl) : Nat := (q.trunc % (2 ^ 32)).toNat

/-- Go `float64(n)` (and `float32(n)`) for an unsigned integer `n`.  Exact for
every value reachable in the theorems below (all below `2^53`); Go rounds
larger values to the nearest representable float. -/
def goFloatOfNat (n : Nat) : Fl := ⟨(n : Int), 0⟩

/-! ## ASCII strings and Go decimal integer formatting/parsing -/

/-- Byte list of an ASCII string literal (all literals used are ASCII). -/
def ascii (s : String) : List Nat := s.data.map Char.toNat

/-- Decimal digit bytes of a natural number (`"0"` for zero), as in Go. -/
def decBytes (n : Nat) : List Nat := (Nat.toDigits 10 n).map Char.toNat

/-- Go `strconv.FormatInt(i, 10)`. -/
def formatInt (i : Int) : List Nat :=
  if i < 0 then 45 :: decBytes (-i).toNat else decBytes i.toNat

def digitVal (c : Nat) : Option Nat :=
  if 48 ≤ c ∧ c ≤ 57 then some (c - 48) else none

def digitsValAux : List Nat → Nat → Option Nat
  | [], acc => some acc
  | c :: r, acc =>
    match digitVal c with
    | some d => digitsValAux r (acc * 10 + d)
    | none => none

/-- Value of a nonempty all-digit byte string; `none` on a syntax error. -/
def digitsVal : List Nat → Option Nat
  | [] => none
  | l => digitsValAux l 0

/-- Go `strconv.ParseInt(string(bs), 10, w+1)` as used by the MultiKV decoder,
which discards the error: a syntax error yields 0 and an out-of-range value is
clamped to the extreme of the bit size, exactly the value Go returns alongside
the error. -/
def parseIntGo (bs : List Nat) (w : Nat) : Int :=
  match bs with
  | 45 :: r =>
    match digitsVal r with
    | none => 0
    | some v => if (v : Int) > 2 ^ w then -(2 ^ w) else -(v : Int)
  | 43 :: r =>
    match digitsVal r with
    | none => 0
    | some v => if (v : Int) ≥ 2 ^ w then 2 ^ w - 1 else (v : Int)
  | _ =>
    match digitsVal bs with
    | none => 0
    | some v => if (v : Int) ≥ 2 ^ w then 2 ^ w - 1 else (v : Int)

/-! ## The record type (src/strategy/data.go `UserInfo`) -/

structure UserInfo where
  ID : Int
  Username : List Nat
  Email : List Nat
  FirstName : List Nat
  LastName : List Nat
  Age : Int
  Height : Fl
  Weight : Fl
  Balance : Fl
  IsActive : Bool
  CreatedAt : Int
  UpdatedAt : Int
  LoginCount : Int
  Score : Fl
  Description : List Nat
deriving DecidableEq, Repr

/-- The zero value `UserInfo{}` of the record struct. -/
def zeroUser : UserInfo :=
  { ID := 0, Username := [], Email := [], FirstName := [], LastName := []
    Age := 0, Height := 0, Weight := 0, Balance := 0, IsActive := false
    CreatedAt := 0, UpdatedAt := 0, LoginCount := 0, Score := 0, Description := [] }

/-! ## Call outcomes, error kinds and dynamic values -/

/-- Error kinds, one per family of `fmt.Errorf` sites (spec section 7). -/
inductive GoErr where
  /-- "user not found" / "user %d not found" -/
  | notFound
  /-- any error returned by `decodeBinaryWithNames` -/
  | decodeErr
  /-- "<field> must be <type>, got %T" in `BinaryWithNamesStrategy.UpdateField` -/
  | typeMismatch
  /-- "field %q is not updatable" / "cannot sum field %q" -/
  | unsupportedField
deriving DecidableEq, Repr

/-- Result of a Go call: nil error, non-nil error, or runtime panic. -/
inductive Outcome (α : Type) where
  | ok (a : α)
  | err (e : GoErr)
  | crash
deriving DecidableEq, Repr

def Outcome.bind {α β : Type} : Outcome α → (α → Outcome β) → Outcome β
  | .ok a, f => f a
  | .err e, _ => .err e
  | .crash, _ => .crash

instance : Monad Outcome where
  pure := .ok
  bind := Outcome.bind

/-- The dynamic (`interface{}`) value handed to `UpdateField`. -/
inductive GoValue where
  | vI64 (v : Int)
  | vI32 (v : Int)
  | vF64 (q : Fl)
  | vF32 (q : Fl)
  | vStr (s : List Nat)
  | vBool (b : Bool)
deriving DecidableEq, Repr

/-! ## Token-level model of `bytes.Buffer` / `bytes.Reader` -/

/-- One token per `encoding/binary` write: the fixed-width little-endian
payloads keep their value; `WriteString` contributes its raw bytes and
`WriteByte` a single raw byte. -/
inductive Prim where
  | pI64 (v : Int)
  | pI32 (v : Int)
  | pF64 (q : Fl)
  | pF32 (q : Fl)
  | pBool (b : Bool)
  | pByte (b : Nat)
  | pBytes (s : List Nat)
deriving DecidableEq, Repr

/-- Byte width of one token. -/
def Prim.width : Prim → Nat
  | .pI64 _ => 8
  | .pI32 _ => 4
  | .pF64 _ => 8
  | .pF32 _ => 4
  | .pBool _ => 1
  | .pByte _ => 1
  | .pBytes s => s.length

/-- Remaining byte width of a token buffer. -/
def wid (l : List Prim) : Nat := (l.map Prim.width).sum

/-- Go `binary.Read(buf, LittleEndian, &x)` for `x : int64`: `none` when the
read fails (end of buffer), in which case `x` keeps its previous value. -/
def rdI64 : List Prim → Option Int × List Prim
  | .pI64 v :: r => (some v, r)
  | l => (none, l)

def rdI32 : List Prim → Option Int × List Prim
  | .pI32 v :: r => (some v, r)
  | l => (none, l)

def rdF64 : List Prim → Option Fl × List Prim
  | .pF64 q :: r => (some q, r)
  | l => (none, l)

def rdF32 : List Prim → Option Fl × List Prim
  | .pF32 q :: r => (some q, r)
  | l => (none, l)

def rdBool : List Prim → Option Bool × List Prim
  | .pBool b :: r => (some b, r)
  | l => (none, l)

/-- Go `buf.ReadByte()`: `none` is `io.EOF`. -/
def rdByteE : List Prim → Option Nat × List Prim
  | .pByte b :: r => (some b, r)
  | l => (none, l)

/-- Go `buf.Read(b)` with `len(b) = n`, keeping the error: `bytes.Reader.Read`
reports `io.EOF` (before looking at `len(b)`) exactly when no bytes remain.
Otherwise it fills `b` with the available bytes; the unfilled tail of the
freshly allocated `b` stays zero. -/
def rdBytesE (n : Nat) : List Prim → Option (List Nat) × List Prim
  | [] => (none, [])
  | .pBytes s :: r =>
    if s = [] ∧ wid r = 0 then (none, .pBytes s :: r)
    else (some (s.take n ++ List.replicate (n - s.length) 0), r)
  | l => (some (List.replicate n 0), l)

/-- Go `buf.Read(b)` with the error ignored (the plain Binary decoder): on
`io.EOF` the buffer `b` keeps its `make([]byte, n)` zero fill. -/
def rdBytes (n : Nat) (l : List Prim) : List Nat × List Prim :=
  match rdBytesE n l with
  | (some s, r) => (s, r)
  | (none, r) => (List.replicate n 0, r)

/-! ## The bbolt bucket model: association list sorted by `bytes.Compare` -/

/-- Strict key order of `bytes.Compare` (lexicographic, a proper prefix is
smaller). -/
def keyLtB : List Nat → List Nat → Bool
  | [], [] => false
  | [], _ :: _ => true
  | _ :: _, [] => false
  | a :: as, b :: bs => if a < b then true else if b < a then false else keyLtB as bs

/-- A bucket: keys are byte strings, values of type `β`. -/
abbrev Bucket (β : Type) := List (List Nat × β)

/-- bbolt `Bucket.Get`. -/
def storeGet {β : Type} (k : List Nat) : Bucket β → Option β
  | [] => none
  | (k', v) :: r => if k = k' then some v else storeGet k r

/-- bbolt `Bucket.Put`: ordered insert, replacing an existing key. -/
def storePut {β : Type} (k : List Nat) (v : β) : Bucket β → Bucket β
  | [] => [(k, v)]
  | (k', v') :: r =>
    if keyLtB k k' then (k, v) :: (k', v') :: r
    else if k = k' then (k, v) :: r
    else (k', v') :: storePut k v r

/-- The sortedness invariant every bucket reachable by `Put`s enjoys. -/
def SortedStore {β : Type} (st : Bucket β) : Prop :=
  List.Pairwise (fun a b => keyLtB a.1 b.1 = true) st

instance {β : Type} (st : Bucket β) : Decidable (SortedStore st) :=
  List.instDecidablePairwise st

/-- bbolt `Cursor.Seek(k)`: the suffix of the sorted bucket whose keys are
not less than `k`. -/
def seek {β : Type} (k : List Nat) (st : Bucket β) : Bucket β :=
  st.dropWhile (fun e => keyLtB e.1 k)

/-! ## Binary strategy (src/strategy/binary.go) -/

/-- A Binary-layout bucket: one encoded blob per record. -/
abbrev BinStore := Bucket (List Prim)

namespace BinaryStrategy

/-- `BinaryStrategy.encodeBinary`: id, the five length-prefixed text fields,
then the fixed-width fields, in the source's order. -/
def encodeBinary (u : UserInfo) : List Prim :=
  [.pI64 u.ID,
   .pI32 (toInt32 u.Username.length), .pBytes u.Username,
   .pI32 (toInt32 u.Email.length), .pBytes u.Email,
   .pI32 (toInt32 u.FirstName.length), .pBytes u.FirstName,
   .pI32 (toInt32 u.LastName.length), .pBytes u.LastName,
   .pI32 (toInt32 u.Description.length), .pBytes u.Description,
   .pI32 u.Age, .pF32 u.Height, .pF32 u.Weight, .pF64 u.Balance,
   .pBool u.IsActive, .pI64 u.CreatedAt, .pI64 u.UpdatedAt,
   .pI32 u.LoginCount, .pF64 u.Score]

/-- One length-prefixed string read of `decodeBinary`: the length-read error is
ignored (a failed read leaves `strLen = 0`); a negative length makes
`make([]byte, strLen)` panic; the byte-read error is ignored. -/
def rdStrB (l : List Prim) : Outcome (List Nat × List Prim) :=
  let (n, l1) := rdI32 l
  let sl := n.getD 0
  if sl < 0 then .crash
  else .ok (rdBytes sl.toNat l1)

/-- `BinaryStrategy.decodeBinary`: every `binary.Read` error is discarded, so a
failed read leaves the target field at its zero value and decoding continues;
the function never returns a non-nil error. -/
def decodeBinary (data : List Prim) : Outcome UserInfo := do
  let (id, b1) := rdI64 data
  let (username, b2) ← rdStrB b1
  let (email, b3) ← rdStrB b2
  let (firstName, b4) ← rdStrB b3
  let (lastName, b5) ← rdStrB b4
  let (desc, b6) ← rdStrB b5
  let (age, b7) := rdI32 b6
  let (height, b8) := rdF32 b7
  let (weight, b9) := rdF32 b8
  let (balance, b10) := rdF64 b9
  let (isActive, b11) := rdBool b10
  let (createdAt, b12) := rdI64 b11
  let (updatedAt, b13) := rdI64 b12
  let (loginCount, b14) := rdI32 b13
  let (score, _) := rdF64 b14
  pure { ID := id.getD 0, Username := username, Email := email,
         FirstName := firstName, LastName := lastName,
         Age := age.getD 0, Height := height.getD 0, Weight := weight.getD 0,
         Balance := balance.getD 0, IsActive := isActive.getD false,
         CreatedAt := createdAt.getD 0, UpdatedAt := updatedAt.getD 0,
         LoginCount := loginCount.getD 0, Score := score.getD 0,
         Description := desc }

/-- `BinaryStrategy.Write`. -/
def Write (st : BinStore) (u : UserInfo) : BinStore :=
  storePut (be8 u.ID) (encodeBinary u) st

/-- `BinaryStrategy.WriteMany` (one transaction, same per-record body). -/
def WriteMany (st : BinStore) (users : List UserInfo) : BinStore :=
  users.foldl (fun st u => storePut (be8 u.ID) (encodeBinary u) st) st

/-- `BinaryStrategy.Read`. -/
def Read (st : BinStore) (id : Int) : Outcome UserInfo :=
  match storeGet (be8 id) st with
  | none => .err .notFound
  | some data => decodeBinary data

def ReadManyLoop : Bucket (List Prim) → Nat → List UserInfo → Outcome (List UserInfo)
  | _, 0, acc => .ok acc
  | [], _, acc => .ok acc
  | (_, v) :: rest, n + 1, acc =>
    match decodeBinary v with
    | .ok u => ReadManyLoop rest n (acc ++ [u])
    | .err e => .err e
    | .crash => .crash

/-- `BinaryStrategy.ReadMany`. -/
def ReadMany (st : BinStore) (startId : Int) (count : Nat) : Outcome (List UserInfo) :=
  ReadManyLoop (seek (be8 startId) st) count []

/-- `BinaryStrategy.UpdateField`: the `value.(float64)` / `value.(int32)` bare
type assertions panic on a mismatched dynamic type, and a field name outside
the switch silently re-encodes the unchanged record. -/
def UpdateField (st : BinStore) (id : Int) (fieldName : List Nat) (value : GoValue) :
    Outcome BinStore :=
  match storeGet (be8 id) st with
  | none => .err .notFound
  | some data =>
    match decodeBinary data with
    | .err e => .err e
    | .crash => .crash
    | .ok user =>
      let updated : Outcome UserInfo :=
        if fieldName = ascii "balance" then
          match value with
          | .vF64 q => .ok { user with Balance := q }
          | _ => .crash
        else if fieldName = ascii "login_count" then
          match value with
          | .vI32 v => .ok { user with LoginCount := v }
          | _ => .crash
        else if fieldName = ascii "score" then
          match value with
          | .vF64 q => .ok { user with Score := q }
          | _ => .crash
        else .ok user
      match updated with
      | .ok user' => .ok (storePut (be8 id) (encodeBinary user') st)
      | .err e => .err e
      | .crash => .crash

def RFSLoop (fieldName : List Nat) : Bucket (List Prim) → Nat → Fl → Outcome Fl
  | _, 0, s => .ok s
  | [], _, s => .ok s
  | (_, v) :: rest, n + 1, s =>
    match decodeBinary v with
    | .ok u =>
      let s' :=
        if fieldName = ascii "balance" then s + u.Balance
        else if fieldName = ascii "score" then s + u.Score
        else if fieldName = ascii "login_count" then s + Fl.ofInt u.LoginCount
        else s
      RFSLoop fieldName rest n s'
    | .err e => .err e
    | .crash => .crash

/-- `BinaryStrategy.ReadFieldSum`: full scan from `c.First()`, decoding each
record and adding the named field (an unknown field adds nothing but is still
counted). -/
def ReadFieldSum (st : BinStore) (fieldName : List Nat) (count : Nat) : Outcome Fl :=
  RFSLoop fieldName st count 0

end BinaryStrategy

/-- The five variable-length text fields fit the `int32` length prefix. -/
def textOk (u : UserInfo) : Prop :=
  u.Username.length < 2 ^ 31 ∧ u.Email.length < 2 ^ 31 ∧ u.FirstName.length < 2 ^ 31 ∧
  u.LastName.length < 2 ^ 31 ∧ u.Description.length < 2 ^ 31

instance (u : UserInfo) : Decidable (textOk u) := by
  unfold textOk; infer_instance

/-! ## MultiKV strategy (src/strategy/multi_kv.go) -/

/-- Value of a big-endian byte string (`binary.BigEndian.Uint64` applied to an
8-byte slice is `beVal` of those bytes). -/
def beVal : List Nat → Nat
  | [] => 0
  | b :: r => b * 256 ^ r.length + beVal r

/-- A MultiKV-layout bucket: raw byte-string values, one entry per field. -/
abbrev MKVStore := Bucket (List Nat)

namespace MultiKVStrategy

/-- `MultiKVStrategy.makeKey`: 8-byte big-endian id, then the field name. -/
def makeKey (id : Int) (field : List Nat) : List Nat := be8 id ++ field

/-- `MultiKVStrategy.decodeField`: dispatch on the field-name suffix.  The
`strconv.ParseInt` errors are discarded (`parseIntGo` already returns the
value Go yields alongside the error); `binary.LittleEndian.Uint64/Uint32` on a
short value panics (`none`).  An unknown field name falls through the switch
and changes nothing. -/
def decodeField (u : UserInfo) (field data : List Nat) : Option UserInfo :=
  if field = ascii "id" then some { u with ID := parseIntGo data 63 }
  else if field = ascii "username" then some { u with Username := data }
  else if field = ascii "email" then some { u with Email := data }
  else if field = ascii "first_name" then some { u with FirstName := data }
  else if field = ascii "last_name" then some { u with LastName := data }
  else if field = ascii "age" then some { u with Age := parseIntGo data 31 }
  else if field = ascii "height" then (leU32 data).map (fun n => { u with Height := goFloatOfNat n })
  else if field = ascii "weight" then (leU32 data).map (fun n => { u with Weight := goFloatOfNat n })
  else if field = ascii "balance" then (leU64 data).map (fun n => { u with Balance := goFloatOfNat n })
  else if field = ascii "is_active" then some { u with IsActive := data = ascii "true" }
  else if field = ascii "created_at" then some { u with CreatedAt := parseIntGo data 63 }
  else if field = ascii "updated_at" then some { u with UpdatedAt := parseIntGo data 63 }
  else if field = ascii "login_count" then some { u with LoginCount := parseIntGo data 31 }
  else if field = ascii "score" then (leU64 data).map (fun n => { u with Score := goFloatOfNat n })
  else if field = ascii "description" then some { u with Description := data }
  else some u

/-- `MultiKVStrategy.writeUserFields`: fifteen `Put`s, one per field, in the
source's order.  Floats go through Go's truncating `uint64`/`uint32`
conversions before being packed little-endian. -/
def writeUserFields (b : MKVStore) (u : UserInfo) : MKVStore :=
  let b := storePut (makeKey u.ID (ascii "id")) (formatInt u.ID) b
  let b := storePut (makeKey u.ID (ascii "username")) u.Username b
  let b := storePut (makeKey u.ID (ascii "email")) u.Email b
  let b := storePut (makeKey u.ID (ascii "first_name")) u.FirstName b
  let b := storePut (makeKey u.ID (ascii "last_name")) u.LastName b
  let b := storePut (makeKey u.ID (ascii "age")) (formatInt u.Age) b
  let b := storePut (makeKey u.ID (ascii "height")) (leW 4 (goUint32OfFloat u.Height)) b
  let b := storePut (makeKey u.ID (ascii "weight")) (leW 4 (goUint32OfFloat u.Weight)) b
  let b := storePut (makeKey u.ID (ascii "balance")) (leW 8 (goUint64OfFloat u.Balance)) b
  let b := storePut (makeKey u.ID (ascii "is_active"))
    (if u.IsActive then ascii "true" else ascii "false") b
  let b := storePut (makeKey u.ID (ascii "created_at")) (formatInt u.CreatedAt) b
  let b := storePut (makeKey u.ID (ascii "updated_at")) (formatInt u.UpdatedAt) b
  let b := storePut (makeKey u.ID (ascii "login_count")) (formatInt u.LoginCount) b
  let b := storePut (makeKey u.ID (ascii "score")) (leW 8 (goUint64OfFloat u.Score)) b
  storePut (makeKey u.ID (ascii "description")) u.Description b

/-- `MultiKVStrategy.Write`. -/
def Write (st : MKVStore) (u : UserInfo) : MKVStore := writeUserFields st u

/-- `MultiKVStrategy.WriteMany`. -/
def WriteMany (st : MKVStore) (users : List UserInfo) : MKVStore :=
  users.foldl writeUserFields st

/-- The `Read` cursor loop: starting at the first field key of the id, decode
every key sharing the 8-byte prefix into the in-progress record. -/
def ReadLoop (pfx : List Nat) : MKVStore → UserInfo → Outcome UserInfo
  | [], u => .ok u
  | (k, v) :: rest, u =>
    if pfx.isPrefixOf k then
      match decodeField u (k.drop 8) v with
      | none => .crash
      | some u' => ReadLoop pfx rest u'
    else .ok u

/-- `MultiKVStrategy.Read`: note there is no presence check — an id with no
keys yields the zero-valued `UserInfo{}` with a nil error. -/
def Read (st : MKVStore) (id : Int) : Outcome UserInfo :=
  ReadLoop (be8 id) (seek (be8 id) st) zeroUser

/-- The code after the `ReadMany` scan loop: append the final in-progress
record if the count has not been reached. -/
def RMFinish (count : Nat) (users : List UserInfo) : Option UserInfo → List UserInfo
  | some u => if users.length < count then users ++ [u] else users
  | none => users

/-- The `ReadMany` cursor loop, with the accumulated records, the current
group id (`var currentId int64`, zero-initialised) and the in-progress record
(`currentUser`, nil-initialised).  When the first visited key's id equals the
initial `currentId` of 0, `decodeField` is called on the nil `currentUser`
and the program panics. -/
def RMLoop (startId : Int) (count : Nat) :
    MKVStore → List UserInfo → Int → Option UserInfo → Outcome (List UserInfo)
  | [], users, _, cur => .ok (RMFinish count users cur)
  | (k, v) :: rest, users, currentId, cur =>
    if count ≤ users.length then .ok (RMFinish count users cur)
    else if k.length < 8 then RMLoop startId count rest users currentId cur
    else
      let id := toInt64 (beVal (k.take 8))
      if id < startId then RMLoop startId count rest users currentId cur
      else if id = currentId then
        match cur with
        | none => .crash
        | some u =>
          match decodeField u (k.drop 8) v with
          | none => .crash
          | some u' => RMLoop startId count rest users currentId (some u')
      else
        match cur with
        | some u =>
          let users' := users ++ [u]
          if count ≤ users'.length then .ok users'
          else
            match decodeField zeroUser (k.drop 8) v with
            | none => .crash
            | some u' => RMLoop startId count rest users' id (some u')
        | none =>
          match decodeField zeroUser (k.drop 8) v with
          | none => .crash
          | some u' => RMLoop startId count rest users id (some u')

/-- `MultiKVStrategy.ReadMany`. -/
def ReadMany (st : MKVStore) (startId : Int) (count : Nat) : Outcome (List UserInfo) :=
  RMLoop startId count (seek (be8 startId) st) [] 0 none

/-- `MultiKVStrategy.UpdateField`: writes the single field key directly — no
presence check, so a missing id silently creates the key; the bare type
assertions panic on a mismatched dynamic type; an unsupported field name
falls through to `return nil`. -/
def UpdateField (st : MKVStore) (id : Int) (fieldName : List Nat) (value : GoValue) :
    Outcome MKVStore :=
  if fieldName = ascii "balance" then
    match value with
    | .vF64 q => .ok (storePut (makeKey id (ascii "balance")) (leW 8 (goUint64OfFloat q)) st)
    | _ => .crash
  else if fieldName = ascii "login_count" then
    match value with
    | .vI32 v => .ok (storePut (makeKey id (ascii "login_count")) (formatInt v) st)
    | _ => .crash
  else if fieldName = ascii "score" then
    match value with
    | .vF64 q => .ok (storePut (makeKey id (ascii "score")) (leW 8 (goUint64OfFloat q)) st)
    | _ => .crash
  else .ok st

/-- The `ReadFieldSum` scan loop over the whole bucket: keys whose suffix is
the field name contribute once per distinct id (`seenIDs`), until `count`
distinct ids have been processed.  `k[:8]` panics on a matching key shorter
than 8 bytes. -/
def RFSLoop (fieldName : List Nat) : MKVStore → Nat → List Int → Fl → Outcome Fl
  | [], _, _, sum => .ok sum
  | (k, v) :: rest, budget, seen, sum =>
    if budget = 0 then .ok sum
    else if fieldName.length ≤ k.length ∧ k.drop (k.length - fieldName.length) = fieldName then
      if k.length < 8 then .crash
      else
        let id := toInt64 (beVal (k.take 8))
        if id ∈ seen then RFSLoop fieldName rest budget seen sum
        else
          let next : Outcome Fl :=
            if fieldName = ascii "balance" ∨ fieldName = ascii "score" then
              match leU64 v with
              | none => .crash
              | some n => .ok (sum + goFloatOfNat n)
            else if fieldName = ascii "login_count" then
              .ok (sum + Fl.ofInt (parseIntGo v 31))
            else .ok sum
          match next with
          | .ok s' => RFSLoop fieldName rest (budget - 1) (id :: seen) s'
          | .err e => .err e
          | .crash => .crash
    else RFSLoop fieldName rest budget seen sum

/-- `MultiKVStrategy.ReadFieldSum`. -/
def ReadFieldSum (st : MKVStore) (fieldName : List Nat) (count : Nat) : Outcome Fl :=
  RFSLoop fieldName st count [] 0

end MultiKVStrategy

/-! ## Binary+Names strategy (src/strategy/binary_with_names.go) -/

/-- Type-marker constants. -/
def tagInt64 : Nat := 1
def tagString : Nat := 2
def tagInt32 : Nat := 3
def tagFloat32 : Nat := 4
def tagFloat64 : Nat := 5
def tagBool : Nat := 6

abbrev BWNStore := Bucket (List Prim)

namespace BinaryWithNamesStrategy

/-- Header of one field: length-prefixed name, then the one-byte type tag. -/
def fieldHeader (name : String) (tag : Nat) : List Prim :=
  [.pI32 (toInt32 (ascii name).length), .pBytes (ascii name), .pByte tag]

/-- A length-prefixed string payload. -/
def strPayload (s : List Nat) : List Prim :=
  [.pI32 (toInt32 s.length), .pBytes s]

/-- `encodeBinaryWithNames`: field count, then name/tag/payload per field in
the source's order.  The error return is always nil (the buffer writes cannot
fail and every tag is drawn from the fixed enumeration). -/
def encodeBinaryWithNames (u : UserInfo) : List Prim :=
  [.pI32 15]
  ++ fieldHeader "id" tagInt64 ++ [.pI64 u.ID]
  ++ fieldHeader "username" tagString ++ strPayload u.Username
  ++ fieldHeader "email" tagString ++ strPayload u.Email
  ++ fieldHeader "first_name" tagString ++ strPayload u.FirstName
  ++ fieldHeader "last_name" tagString ++ strPayload u.LastName
  ++ fieldHeader "age" tagInt32 ++ [.pI32 u.Age]
  ++ fieldHeader "height" tagFloat32 ++ [.pF32 u.Height]
  ++ fieldHeader "weight" tagFloat32 ++ [.pF32 u.Weight]
  ++ fieldHeader "balance" tagFloat64 ++ [.pF64 u.Balance]
  ++ fieldHeader "is_active" tagBool ++ [.pBool u.IsActive]
  ++ fieldHeader "created_at" tagInt64 ++ [.pI64 u.CreatedAt]
  ++ fieldHeader "updated_at" tagInt64 ++ [.pI64 u.UpdatedAt]
  ++ fieldHeader "login_count" tagInt32 ++ [.pI32 u.LoginCount]
  ++ fieldHeader "score" tagFloat64 ++ [.pF64 u.Score]
  ++ fieldHeader "description" tagString ++ strPayload u.Description

/-- The per-field loop of `decodeBinaryWithNames`: every failed read returns a
non-nil error (`decodeErr`); a negative length panics in `make`; an
unrecognized tag, or a name the tag's switch does not expect, is an error. -/
def decodeLoop : Nat → List Prim → UserInfo → Outcome UserInfo
  | 0, _, u => .ok u
  | n + 1, l, u =>
    match rdI32 l with
    | (none, _) => .err .decodeErr
    | (some nameLen, l1) =>
      if nameLen < 0 then .crash
      else
        match rdBytesE nameLen.toNat l1 with
        | (none, _) => .err .decodeErr
        | (some nameBytes, l2) =>
          match rdByteE l2 with
          | (none, _) => .err .decodeErr
          | (some tag, l3) =>
            if tag = tagInt64 then
              match rdI64 l3 with
              | (none, _) => .err .decodeErr
              | (some v, l4) =>
                if nameBytes = ascii "id" then decodeLoop n l4 { u with ID := v }
                else if nameBytes = ascii "created_at" then decodeLoop n l4 { u with CreatedAt := v }
                else if nameBytes = ascii "updated_at" then decodeLoop n l4 { u with UpdatedAt := v }
                else .err .decodeErr
            else if tag = tagString then
              match rdI32 l3 with
              | (none, _) => .err .decodeErr
              | (some strLen, l4) =>
                if strLen < 0 then .crash
                else
                  match rdBytesE strLen.toNat l4 with
                  | (none, _) => .err .decodeErr
                  | (some strBytes, l5) =>
                    if nameBytes = ascii "username" then decodeLoop n l5 { u with Username := strBytes }
                    else if nameBytes = ascii "email" then decodeLoop n l5 { u with Email := strBytes }
                    else if nameBytes = ascii "first_name" then decodeLoop n l5 { u with FirstName := strBytes }
                    else if nameBytes = ascii "last_name" then decodeLoop n l5 { u with LastName := strBytes }
                    else if nameBytes = ascii "description" then decodeLoop n l5 { u with Description := strBytes }
                    else .err .decodeErr
            else if tag = tagInt32 then
              match rdI32 l3 with
              | (none, _) => .err .decodeErr
              | (some v, l4) =>
                if nameBytes = ascii "age" then decodeLoop n l4 { u with Age := v }
                else if nameBytes = ascii "login_count" then decodeLoop n l4 { u with LoginCount := v }
                else .err .decodeErr
            else if tag = tagFloat32 then
              match rdF32 l3 with
              | (none, _) => .err .decodeErr
              | (some q, l4) =>
                if nameBytes = ascii "height" then decodeLoop n l4 { u with Height := q }
                else if nameBytes = ascii "weight" then decodeLoop n l4 { u with Weight := q }
                else .err .decodeErr
            else if tag = tagFloat64 then
              match rdF64 l3 with
              | (none, _) => .err .decodeErr
              | (some q, l4) =>
                if nameBytes = ascii "balance" then decodeLoop n l4 { u with Balance := q }
                else if nameBytes = ascii "score" then decodeLoop n l4 { u with Score := q }
                else .err .decodeErr
            else if tag = tagBool then
              match rdBool l3 with
              | (none, _) => .err .decodeErr
              | (some b, l4) =>
                if nameBytes = ascii "is_active" then decodeLoop n l4 { u with IsActive := b }
                else .err .decodeErr
            else .err .decodeErr

/-- `decodeBinaryWithNames`. -/
def decodeBinaryWithNames (data : List Prim) : Outcome UserInfo :=
  match rdI32 data with
  | (none, _) => .err .decodeErr
  | (some fc, l1) => decodeLoop fc.toNat l1 zeroUser

/-- `BinaryWithNamesStrategy.Write`. -/
def Write (st : BWNStore) (u : UserInfo) : BWNStore :=
  storePut (be8 u.ID) (encodeBinaryWithNames u) st

/-- `BinaryWithNamesStrategy.WriteMany`. -/
def WriteMany (st : BWNStore) (users : List UserInfo) : BWNStore :=
  users.foldl (fun st u => storePut (be8 u.ID) (encodeBinaryWithNames u) st) st

/-- `BinaryWithNamesStrategy.Read`: "user %d not found" on a missing key,
otherwise decode (whose errors propagate). -/
def Read (st : BWNStore) (id : Int) : Outcome UserInfo :=
  match storeGet (be8 id) st with
  | none => .err .notFound
  | some data => decodeBinaryWithNames data

def ReadManyLoop : BWNStore → Nat → List UserInfo → Outcome (List UserInfo)
  | _, 0, acc => .ok acc
  | [], _, acc => .ok acc
  | (_, v) :: rest, n + 1, acc =>
    match decodeBinaryWithNames v with
    | .ok u => ReadManyLoop rest n (acc ++ [u])
    | .err e => .err e
    | .crash => .crash

/-- `BinaryWithNamesStrategy.ReadMany`. -/
def ReadMany (st : BWNStore) (startId : Int) (count : Nat) : Outcome (List UserInfo) :=
  ReadManyLoop (seek (be8 startId) st) count []

/-- The full-type-checked field switch of `UpdateField`: comma-ok assertions
return a "must be" error (`typeMismatch`) instead of panicking, and the
default branch reports "field %q is not updatable". -/
def applyUpdate (user : UserInfo) (fieldName : List Nat) (value : GoValue) :
    Outcome UserInfo :=
  if fieldName = ascii "username" then
    match value with
    | .vStr s => .ok { user with Username := s }
    | _ => .err .typeMismatch
  else if fieldName = ascii "email" then
    match value with
    | .vStr s => .ok { user with Email := s }
    | _ => .err .typeMismatch
  else if fieldName = ascii "first_name" then
    match value with
    | .vStr s => .ok { user with FirstName := s }
    | _ => .err .typeMismatch
  else if fieldName = ascii "last_name" then
    match value with
    | .vStr s => .ok { user with LastName := s }
    | _ => .err .typeMismatch
  else if fieldName = ascii "description" then
    match value with
    | .vStr s => .ok { user with Description := s }
    | _ => .err .typeMismatch
  else if fieldName = ascii "age" then
    match value with
    | .vI32 v => .ok { user with Age := v }
    | _ => .err .typeMismatch
  else if fieldName = ascii "height" then
    match value with
    | .vF32 q => .ok { user with Height := q }
    | _ => .err .typeMismatch
  else if fieldName = ascii "weight" then
    match value with
    | .vF32 q => .ok { user with Weight := q }
    | _ => .err .typeMismatch
  else if fieldName = ascii "login_count" then
    match value with
    | .vI32 v => .ok { user with LoginCount := v }
    | _ => .err .typeMismatch
  else if fieldName = ascii "balance" then
    match value with
    | .vF64 q => .ok { user with Balance := q }
    | _ => .err .typeMismatch
  else if fieldName = ascii "score" then
    match value with
    | .vF64 q => .ok { user with Score := q }
    | _ => .err .typeMismatch
  else if fieldName = ascii "is_active" then
    match value with
    | .vBool b => .ok { user with IsActive := b }
    | _ => .err .typeMismatch
  else if fieldName = ascii "created_at" then
    match value with
    | .vI64 v => .ok { user with CreatedAt := v }
    | _ => .err .typeMismatch
  else if fieldName = ascii "updated_at" then
    match value with
    | .vI64 v => .ok { user with UpdatedAt := v }
    | _ => .err .typeMismatch
  else .err .unsupportedField

/-- `BinaryWithNamesStrategy.UpdateField`: read, decode, type-checked mutate,
re-encode, put. -/
def UpdateField (st : BWNStore) (id : Int) (fieldName : List Nat) (value : GoValue) :
    Outcome BWNStore :=
  match storeGet (be8 id) st with
  | none => .err .notFound
  | some data =>
    match decodeBinaryWithNames data with
    | .err e => .err e
    | .crash => .crash
    | .ok user =>
      match applyUpdate user fieldName value with
      | .ok user' => .ok (storePut (be8 id) (encodeBinaryWithNames user') st)
      | .err e => .err e
      | .crash => .crash

def RFSLoop (fieldName : List Nat) : BWNStore → Nat → Fl → Outcome Fl
  | _, 0, s => .ok s
  | [], _, s => .ok s
  | (_, v) :: rest, n + 1, s =>
    match decodeBinaryWithNames v with
    | .ok u =>
      if fieldName = ascii "balance" then RFSLoop fieldName rest n (s + u.Balance)
      else if fieldName = ascii "score" then RFSLoop fieldName rest n (s + u.Score)
      else if fieldName = ascii "login_count" then RFSLoop fieldName rest n (s + Fl.ofInt u.LoginCount)
      else .err .unsupportedField
    | .err e => .err e
    | .crash => .crash

/-- `BinaryWithNamesStrategy.ReadFieldSum`: like the Binary one, but an
unknown field name is "cannot sum field %q". -/
def ReadFieldSum (st : BWNStore) (fieldName : List Nat) (count : Nat) : Outcome Fl :=
  RFSLoop fieldName st count 0

end BinaryWithNamesStrategy

/-! ## The Strategy contract and StrategyVariant (src/strategy/strategy.go,
src/strategy/strategy_variant.go) -/

/-- The `StorageStrategy` interface, over the store representation `σ` owned
by the strategy.  Writes are total: in the model the bucket exists and `Put`
cannot fail. -/
structure Strategy (σ : Type) where
  write : σ → UserInfo → σ
  writeMany : σ → List UserInfo → σ
  read : σ → Int → Outcome UserInfo
  readMany : σ → Int → Nat → Outcome (List UserInfo)
  updateField : σ → Int → List Nat → GoValue → Outcome σ
  readFieldSum : σ → List Nat → Nat → Outcome Fl

/-- The `BinaryStrategy` packaged under the contract. -/
def BinaryStrategy.strategy : Strategy BinStore :=
  { write := BinaryStrategy.Write, writeMany := BinaryStrategy.WriteMany,
    read := BinaryStrategy.Read, readMany := BinaryStrategy.ReadMany,
    updateField := BinaryStrategy.UpdateField,
    readFieldSum := BinaryStrategy.ReadFieldSum }

/-- The `MultiKVStrategy` packaged under the contract. -/
def MultiKVStrategy.strategy : Strategy MKVStore :=
  { write := MultiKVStrategy.Write, writeMany := MultiKVStrategy.WriteMany,
    read := MultiKVStrategy.Read, readMany := MultiKVStrategy.ReadMany,
    updateField := MultiKVStrategy.UpdateField,
    readFieldSum := MultiKVStrategy.ReadFieldSum }

/-- The `BinaryWithNamesStrategy` packaged under the contract. -/
def BinaryWithNamesStrategy.strategy : Strategy BWNStore :=
  { write := BinaryWithNamesStrategy.Write, writeMany := BinaryWithNamesStrategy.WriteMany,
    read := BinaryWithNamesStrategy.Read, readMany := BinaryWithNamesStrategy.ReadMany,
    updateField := BinaryWithNamesStrategy.UpdateField,
    readFieldSum := BinaryWithNamesStrategy.ReadFieldSum }

/-- `StrategyVariant`: a wrapped strategy plus the insertion-mode flag. -/
structure StrategyVariant (σ : Type) where
  strategy : Strategy σ
  bulk : Bool

namespace StrategyVariant

variable {σ : Type}

/-- Delegated `Read`. -/
def Read (sv : StrategyVariant σ) (st : σ) (id : Int) : Outcome UserInfo :=
  sv.strategy.read st id

/-- Delegated `ReadMany`. -/
def ReadMany (sv : StrategyVariant σ) (st : σ) (startId : Int) (count : Nat) :
    Outcome (List UserInfo) :=
  sv.strategy.readMany st startId count

/-- Delegated `UpdateField`. -/
def UpdateField (sv : StrategyVariant σ) (st : σ) (id : Int) (fieldName : List Nat)
    (value : GoValue) : Outcome σ :=
  sv.strategy.updateField st id fieldName value

/-- Delegated `ReadFieldSum`. -/
def ReadFieldSum (sv : StrategyVariant σ) (st : σ) (fieldName : List Nat) (count : Nat) :
    Outcome Fl :=
  sv.strategy.readFieldSum st fieldName count

/-- `StrategyVariant.WriteAll`: one `WriteMany` call when `Bulk`, otherwise
one `Write` call per record in order. -/
def WriteAll (sv : StrategyVariant σ) (st : σ) (users : List UserInfo) : σ :=
  if sv.bulk then sv.strategy.writeMany st users
  else users.foldl sv.strategy.write st

end StrategyVariant

/-! ## Concrete records used by the witnesses and counterexamples -/

/-- A small fully populated record (balance 10.5, score 99.5). -/
def sampleUser : UserInfo :=
  { ID := 1, Username := ascii "u", Email := ascii "e", FirstName := ascii "f",
    LastName := ascii "l", Age := 30, Height := ⟨150, 0⟩, Weight := ⟨60, 0⟩,
    Balance := ⟨21, 1⟩, IsActive := true, CreatedAt := 100, UpdatedAt := 200,
    LoginCount := 3, Score := ⟨199, 1⟩, Description := ascii "d" }

/-- A record whose balance is the fractional value 1/2. -/
def cexUser : UserInfo := { zeroUser with ID := 1, Balance := ⟨1, 1⟩ }

/-- A record with the given id and balance, all other fields zero. -/
def balUser (i : Int) (b : Fl) : UserInfo := { zeroUser with ID := i, Balance := b }

/-- The spec's aggregate dataset: balances 10.5, 20.25, 0, -5.75, 100. -/
def dataset5 : List UserInfo :=
  [balUser 0 ⟨21, 1⟩, balUser 1 ⟨81, 2⟩, balUser 2 0, balUser 3 ⟨-23, 2⟩, balUser 4 ⟨100, 0⟩]

/-- Records with strictly increasing ids in the uint64 range, bounded text
fields, and balances that are float64 values (fixed by `f64round`) of
magnitude below `2^1000` (`bitLen |m| ≤ 1000 + e`), with at most `2^20`
records.  The last three bounds
keep every partial sum of balances far inside the finite float64 range, where
the infinity-free `Fl.add` is exactly Go's float64 addition. -/
def idsOk (users : List UserInfo) : Prop :=
  users.Pairwise (fun a b => a.ID < b.ID) ∧
  users.length ≤ 2 ^ 20 ∧
  ∀ u ∈ users, 0 ≤ u.ID ∧ u.ID < 2 ^ 64 ∧ textOk u ∧
    f64round u.Balance = u.Balance ∧ bitLen u.Balance.m.natAbs ≤ 1000 + u.Balance.e

instance (users : List UserInfo) : Decidable (idsOk users) := by
  unfold idsOk
  infer_instance

/-! ## General lemmas about the embedding -/

theorem toInt32_of_lt {n : Nat} (h : n < 2 ^ 31) : toInt32 n = (n : Int) := by
  have h32 : n < 2 ^ 32 := lt_trans h (by norm_num)
  unfold toInt32
  rw [Nat.mod_eq_of_lt h32, if_pos h]

theorem beW_length (w n : Nat) : (beW w n).length = w := by
  induction w generalizing n with
  | zero => simp [beW]
  | succ w ih => simp [beW, ih]

theorem be8_length (i : Int) : (be8 i).length = 8 := beW_length 8 _

@[simp] theorem Outcome.bind_ok {α β : Type} (a : α) (f : α → Outcome β) :
    Outcome.bind (.ok a) f = f a := rfl

@[simp] theorem Outcome.bind_err {α β : Type} (e : GoErr) (f : α → Outcome β) :
    Outcome.bind (.err e) f = .err e := rfl

@[simp] theorem Outcome.bind_crash {α β : Type} (f : α → Outcome β) :
    Outcome.bind (.crash : Outcome α) f = .crash := rfl

@[simp] theorem Outcome.monad_bind {α β : Type} (x : Outcome α) (f : α → Outcome β) :
    x >>= f = Outcome.bind x f := rfl

@[simp] theorem Outcome.monad_pure {α : Type} (a : α) :
    (pure a : Outcome α) = .ok a := rfl

theorem keyLtB_irrefl (k : List Nat) : keyLtB k k = false := by
  induction k with
  | nil => rfl
  | cons a as ih => simp [keyLtB, ih]

theorem keyLtB_asymm : ∀ {a b : List Nat}, keyLtB a b = true → keyLtB b a = false := by
  intro a
  induction a with
  | nil =>
    intro b h
    cases b with
    | nil => simp [keyLtB] at h
    | cons x xs => simp [keyLtB]
  | cons x xs ih =>
    intro b h
    cases b with
    | nil => simp [keyLtB] at h
    | cons y ys =>
      simp only [keyLtB] at h ⊢
      by_cases hxy : x < y
      · have hyx : ¬ y < x := by omega
        simp [hxy, hyx]
      · by_cases hyx : y < x
        · simp [hxy, hyx] at h
        · simp only [hxy, hyx, if_false] at h ⊢
          exact ih h

theorem keyLtB_ne {a b : List Nat} (h : keyLtB a b = true) : a ≠ b := by
  intro hab; subst hab; rw [keyLtB_irrefl] at h; cases h

theorem storeGet_storePut {β : Type} (k k2 : List Nat) (v : β) (st : Bucket β) :
    storeGet k (storePut k2 v st) = if k = k2 then some v else storeGet k st := by
  induction st with
  | nil => by_cases h : k = k2 <;> simp [storePut, storeGet, h]
  | cons e r ih =>
    obtain ⟨k', v'⟩ := e
    by_cases hlt : keyLtB k2 k' = true
    · by_cases h : k = k2 <;> simp [storePut, hlt, storeGet, h]
    · by_cases heq : k2 = k'
      · subst heq
        by_cases h : k = k2 <;> simp [storePut, hlt, storeGet, h]
      · by_cases h : k = k2
        · subst h
          simp [storePut, hlt, heq, storeGet, ih]
        · simp [storePut, hlt, heq, storeGet, ih, h]

/-- Putting a key strictly greater than every present key appends. -/
theorem storePut_append {β : Type} (k : List Nat) (v : β) (st : Bucket β)
    (h : ∀ e ∈ st, keyLtB e.1 k = true) :
    storePut k v st = st ++ [(k, v)] := by
  induction st with
  | nil => simp [storePut]
  | cons e r ih =>
    obtain ⟨k', v'⟩ := e
    have hk' : keyLtB k' k = true := h (k', v') (by simp)
    have h1 : keyLtB k k' = false := keyLtB_asymm hk'
    have h2 : k ≠ k' := fun hkk => keyLtB_ne hk' hkk.symm
    simp [storePut, h1, h2]
    exact ih (fun e he => h e (by simp [he]))

/-- A successful lookup exhibits a member of the bucket. -/
theorem storeGet_mem {β : Type} {k : List Nat} {v : β} :
    ∀ {st : Bucket β}, storeGet k st = some v → (k, v) ∈ st := by
  intro st
  induction st with
  | nil => intro h; simp [storeGet] at h
  | cons e r ih =>
    obtain ⟨k', v'⟩ := e
    intro h
    by_cases heq : k = k'
    · subst heq
      simp [storeGet] at h
      simp [h]
    · simp [storeGet, heq] at h
      exact List.mem_cons_of_mem _ (ih h)

/-- Replacing a present binding by the identical value leaves a sorted bucket
unchanged. -/
theorem storePut_self {β : Type} (k : List Nat) (v : β) (st : Bucket β)
    (hs : SortedStore st) (hg : storeGet k st = some v) :
    storePut k v st = st := by
  induction st with
  | nil => simp [storeGet] at hg
  | cons e r ih =>
    obtain ⟨k', v'⟩ := e
    by_cases heq : k = k'
    · subst heq
      simp [storeGet] at hg
      simp [storePut, keyLtB_irrefl, hg]
    · simp only [storeGet, if_neg heq] at hg
      have hrest : storePut k v r = r :=
        ih (List.Pairwise.sublist (List.sublist_cons_self _ _) hs) hg
      by_cases hlt : keyLtB k k' = true
      · exfalso
        have hmem : (k, v) ∈ r := storeGet_mem hg
        have h1 := (List.pairwise_cons.mp hs).1 (k, v) hmem
        simp only at h1
        have h2 := keyLtB_asymm h1
        rw [hlt] at h2; cases h2
      · simp [storePut, hlt, heq, hrest]

theorem wid_nil : wid [] = 0 := rfl

theorem wid_cons (p : Prim) (l : List Prim) : wid (p :: l) = p.width + wid l := by
  simp [wid]

theorem rdStrB_pI32 {s : List Nat} (h : s.length < 2 ^ 31) (v : Int) (r : List Prim) :
    BinaryStrategy.rdStrB (.pI32 (toInt32 s.length) :: .pBytes s :: .pI32 v :: r) =
      .ok (s, .pI32 v :: r) := by
  have hc : ¬ (s = [] ∧ wid (Prim.pI32 v :: r) = 0) := by
    rintro ⟨hs, hw⟩
    simp [wid, Prim.width] at hw
  simp only [BinaryStrategy.rdStrB, rdI32, toInt32_of_lt h]
  norm_num
  simp [rdBytes, rdBytesE, hc]

theorem decodeBinary_encodeBinary (u : UserInfo) (h : textOk u) :
    BinaryStrategy.decodeBinary (BinaryStrategy.encodeBinary u) = .ok u := by
  obtain ⟨h1, h2, h3, h4, h5⟩ := h
  simp [BinaryStrategy.encodeBinary, BinaryStrategy.decodeBinary,
        rdStrB_pI32 h1, rdStrB_pI32 h2, rdStrB_pI32 h3, rdStrB_pI32 h4, rdStrB_pI32 h5,
        rdI64, rdI32, rdF64, rdF32, rdBool]

/-! ## Claim C1: Read on a missing id -/

/-- Any entry of a cursor scan started by `Seek` is an entry of the bucket. -/
theorem seek_subset {β : Type} {e : List Nat × β} {k : List Nat} {st : Bucket β}
    (h : e ∈ seek k st) : e ∈ st :=
  (List.dropWhile_sublist _).subset h

/-- C1 counterexample: in the MultiKV layout, reading an id that is absent
from a populated store returns the zero-filled record with a nil error — not
a NotFound error. -/
theorem C1_counterexample :
    MultiKVStrategy.Read (MultiKVStrategy.Write [] sampleUser) 2 = .ok zeroUser ∧
    MultiKVStrategy.Read (MultiKVStrategy.Write [] sampleUser) 2 ≠ .err .notFound := by
  decide

/-- C1 amended: `Read` on an absent id fails with NotFound in the Binary and
Binary+Names layouts, but in the MultiKV layout it returns the zero-filled
`UserInfo{}` with a nil error (the cursor scan finds no key with the id's
8-byte prefix and the presence is never checked). -/
theorem C1_read_missing :
    (∀ (st : BinStore) (id : Int), storeGet (be8 id) st = none →
      BinaryStrategy.Read st id = .err .notFound) ∧
    (∀ (st : BWNStore) (id : Int), storeGet (be8 id) st = none →
      BinaryWithNamesStrategy.Read st id = .err .notFound) ∧
    (∀ (st : MKVStore) (id : Int),
      (∀ e ∈ st, (be8 id).isPrefixOf e.1 = false) →
      MultiKVStrategy.Read st id = .ok zeroUser) := by
  refine ⟨fun st id h => ?_, fun st id h => ?_, fun st id h => ?_⟩
  · unfold BinaryStrategy.Read
    rw [h]
  · unfold BinaryWithNamesStrategy.Read
    rw [h]
  · unfold MultiKVStrategy.Read
    cases hs : seek (be8 id) st with
    | nil => simp [MultiKVStrategy.ReadLoop]
    | cons e rest =>
      have he : e ∈ st := seek_subset (hs ▸ List.mem_cons_self e rest)
      obtain ⟨k, v⟩ := e
      have hp := h (k, v) he
      simp [MultiKVStrategy.ReadLoop, hp]

/-- C1 witness: the three amended statements at an empty store and id 7. -/
theorem C1_witness :
    BinaryStrategy.Read ([] : BinStore) 7 = .err .notFound ∧
    BinaryWithNamesStrategy.Read ([] : BWNStore) 7 = .err .notFound ∧
    MultiKVStrategy.Read ([] : MKVStore) 7 = .ok zeroUser :=
  ⟨C1_read_missing.1 [] 7 rfl, C1_read_missing.2.1 [] 7 rfl,
   C1_read_missing.2.2 [] 7 (by simp)⟩

/-! ## Claim C2: UpdateField on a missing id -/

/-- C2 counterexample: in the MultiKV layout, `UpdateField` on an id absent
from an empty store succeeds and creates the balance key (value 2.5 is
truncated to the integer 2 by the float encoding). -/
theorem C2_counterexample :
    MultiKVStrategy.UpdateField ([] : MKVStore) 1 (ascii "balance") (.vF64 ⟨5, 1⟩) =
      .ok [(MultiKVStrategy.makeKey 1 (ascii "balance"), leW 8 2)] := by decide

/-- C2 amended: `UpdateField` on an absent id fails with NotFound and leaves
the store unchanged in the Binary and Binary+Names layouts; the MultiKV
layout performs no presence check — updating `balance` always succeeds and
writes (creating if necessary) the single balance key. -/
theorem C2_update_missing :
    (∀ (st : BinStore) (id : Int) (f : List Nat) (v : GoValue),
      storeGet (be8 id) st = none →
      BinaryStrategy.UpdateField st id f v = .err .notFound) ∧
    (∀ (st : BWNStore) (id : Int) (f : List Nat) (v : GoValue),
      storeGet (be8 id) st = none →
      BinaryWithNamesStrategy.UpdateField st id f v = .err .notFound) ∧
    (∀ (st : MKVStore) (id : Int) (q : Fl),
      ∃ st', MultiKVStrategy.UpdateField st id (ascii "balance") (.vF64 q) = .ok st' ∧
        storeGet (MultiKVStrategy.makeKey id (ascii "balance")) st' =
          some (leW 8 (goUint64OfFloat q))) := by
  refine ⟨fun st id f v h => ?_, fun st id f v h => ?_, fun st id q => ?_⟩
  · unfold BinaryStrategy.UpdateField
    rw [h]
  · unfold BinaryWithNamesStrategy.UpdateField
    rw [h]
  · refine ⟨storePut (MultiKVStrategy.makeKey id (ascii "balance"))
      (leW 8 (goUint64OfFloat q)) st, ?_, ?_⟩
    · simp [MultiKVStrategy.UpdateField]
    · simp [storeGet_storePut]

/-- C2 witness: the three amended statements at an empty store and id 3. -/
theorem C2_witness :
    BinaryStrategy.UpdateField ([] : BinStore) 3 (ascii "balance") (.vF64 0) = .err .notFound ∧
    BinaryWithNamesStrategy.UpdateField ([] : BWNStore) 3 (ascii "balance") (.vF64 0) =
      .err .notFound ∧
    ∃ st', MultiKVStrategy.UpdateField ([] : MKVStore) 3 (ascii "balance") (.vF64 0) = .ok st' ∧
      storeGet (MultiKVStrategy.makeKey 3 (ascii "balance")) st' = some (leW 8 (goUint64OfFloat 0)) :=
  ⟨C2_update_missing.1 [] 3 (ascii "balance") (.vF64 0) rfl,
   C2_update_missing.2.1 [] 3 (ascii "balance") (.vF64 0) rfl,
   C2_update_missing.2.2 [] 3 0⟩

/-! ## Claim C3: round-trip -/

/-- C3 counterexample: the MultiKV layout does not round-trip fractional float
fields — a record with balance 1/2 reads back with balance 0, because the
encoder stores `uint64(balance)`. -/
theorem C3_counterexample :
    MultiKVStrategy.Read (MultiKVStrategy.Write [] cexUser) cexUser.ID =
      .ok { cexUser with Balance := 0 } ∧
    ({ cexUser with Balance := 0 } : UserInfo) ≠ cexUser := by decide

/-- C3 amended: in the Binary layout, decoding the encoding of any record
(text fields below the int32 length-prefix bound) restores all 15 fields, and
reading back a written record returns it exactly; the MultiKV layout loses
the fractional part of float fields. -/
theorem C3_binary_round_trip (u : UserInfo) (h : textOk u) :
    BinaryStrategy.decodeBinary (BinaryStrategy.encodeBinary u) = .ok u ∧
    ∀ st : BinStore, BinaryStrategy.Read (BinaryStrategy.Write st u) u.ID = .ok u := by
  refine ⟨decodeBinary_encodeBinary u h, fun st => ?_⟩
  unfold BinaryStrategy.Read BinaryStrategy.Write
  rw [storeGet_storePut]
  simp [decodeBinary_encodeBinary u h]

/-- C3 witness: the amended statement at a concrete record with an empty text
field and fractional floats, over the empty store. -/
theorem C3_witness :
    textOk cexUser ∧
    BinaryStrategy.Read (BinaryStrategy.Write [] cexUser) cexUser.ID = .ok cexUser :=
  ⟨by decide, (C3_binary_round_trip cexUser (by decide)).2 []⟩

/-! ## Claim C5: ReadMany range correctness -/

/-- C5: evaluating the code at the failing input.  In the MultiKV layout, with
a record of id 0 present, `ReadMany(store, 0, 1)` panics: the first visited
key's id equals the zero-initialised `currentId`, so `decodeField` is called
on the still-nil `currentUser`. -/
theorem C5_theorem :
    MultiKVStrategy.ReadMany (MultiKVStrategy.Write [] (balUser 0 0)) 0 1 = .crash := by decide

/-! ## Claim C6: UpdateField with a mismatched value type -/

/-- C6 counterexample: in the Binary layout, updating `balance` of an existing
record with an `int32` value panics on the bare `value.(float64)` type
assertion — the caller gets a crash, not a TypeMismatch error. -/
theorem C6_counterexample :
    BinaryStrategy.UpdateField (BinaryStrategy.Write [] sampleUser) 1 (ascii "balance")
      (.vI32 5) = .crash := by decide

/-- C6 amended: only the Binary+Names layout reports a mismatched update value
as an ordinary TypeMismatch error; the Binary and MultiKV layouts use bare
type assertions and panic instead. -/
theorem C6_type_mismatch :
    (∀ (st : BWNStore) (id : Int) (data : List Prim) (user : UserInfo) (v : GoValue),
      storeGet (be8 id) st = some data →
      BinaryWithNamesStrategy.decodeBinaryWithNames data = .ok user →
      (∀ q, v ≠ .vF64 q) →
      BinaryWithNamesStrategy.UpdateField st id (ascii "balance") v = .err .typeMismatch) ∧
    (∀ (st : MKVStore) (id : Int) (v : GoValue), (∀ q, v ≠ .vF64 q) →
      MultiKVStrategy.UpdateField st id (ascii "balance") v = .crash) := by
  constructor
  · intro st id data user v h1 h2 hv
    unfold BinaryWithNamesStrategy.UpdateField
    simp only [h1, h2]
    have e1 : (ascii "balance" = ascii "username") = False := by decide
    have e2 : (ascii "balance" = ascii "email") = False := by decide
    have e3 : (ascii "balance" = ascii "first_name") = False := by decide
    have e4 : (ascii "balance" = ascii "last_name") = False := by decide
    have e5 : (ascii "balance" = ascii "description") = False := by decide
    have e6 : (ascii "balance" = ascii "age") = False := by decide
    have e7 : (ascii "balance" = ascii "height") = False := by decide
    have e8 : (ascii "balance" = ascii "weight") = False := by decide
    have e9 : (ascii "balance" = ascii "login_count") = False := by decide
    simp only [BinaryWithNamesStrategy.applyUpdate, e1, e2, e3, e4, e5, e6, e7, e8, e9,
      if_false, if_pos rfl]
    cases v with
    | vF64 q => exact absurd rfl (hv q)
    | vI64 w => rfl
    | vI32 w => rfl
    | vF32 w => rfl
    | vStr s => rfl
    | vBool b => rfl
  · intro st id v hv
    unfold MultiKVStrategy.UpdateField
    simp only [if_pos rfl]
    cases v with
    | vF64 q => exact absurd rfl (hv q)
    | vI64 w => rfl
    | vI32 w => rfl
    | vF32 w => rfl
    | vStr s => rfl
    | vBool b => rfl

/-- C6 witness: the amended statements at a populated Binary+Names store and
at id 1 in MultiKV, with an int32 value aimed at `balance`. -/
theorem C6_witness :
    BinaryWithNamesStrategy.UpdateField (BinaryWithNamesStrategy.Write [] sampleUser) 1
      (ascii "balance") (.vI32 5) = .err .typeMismatch ∧
    MultiKVStrategy.UpdateField ([] : MKVStore) 1 (ascii "balance") (.vI32 5) = .crash :=
  ⟨C6_type_mismatch.1 _ 1 (BinaryWithNamesStrategy.encodeBinaryWithNames sampleUser) sampleUser
      (.vI32 5) (by decide) (by decide) (fun q h => GoValue.noConfusion h),
   C6_type_mismatch.2 [] 1 (.vI32 5) (fun q h => GoValue.noConfusion h)⟩

/-! ## Claim C7: UpdateField with an unsupported field name -/

/-- C7 counterexample: in the Binary layout, updating a field name outside
balance/login_count/score on an existing record succeeds silently — the
unchanged record is re-encoded and stored, and no UnsupportedField error is
returned. -/
theorem C7_counterexample :
    BinaryStrategy.UpdateField (BinaryStrategy.Write [] sampleUser) 1 (ascii "nickname")
      (.vF64 0) = .ok (BinaryStrategy.Write [] sampleUser) := by decide

/-- C7 amended: a field name outside balance/login_count/score makes
`UpdateField` succeed silently in the MultiKV layout (a pure no-op) and in
the Binary layout (the unchanged record is re-encoded over itself); only the
Binary+Names layout rejects a name outside its fourteen typed fields with an
"is not updatable" (UnsupportedField) error. -/
theorem C7_unsupported_field :
    (∀ (st : MKVStore) (id : Int) (f : List Nat) (v : GoValue),
      f ≠ ascii "balance" → f ≠ ascii "login_count" → f ≠ ascii "score" →
      MultiKVStrategy.UpdateField st id f v = .ok st) ∧
    (∀ (st : BinStore) (u : UserInfo) (id : Int) (f : List Nat) (v : GoValue),
      SortedStore st → storeGet (be8 id) st = some (BinaryStrategy.encodeBinary u) →
      textOk u →
      f ≠ ascii "balance" → f ≠ ascii "login_count" → f ≠ ascii "score" →
      BinaryStrategy.UpdateField st id f v = .ok st) ∧
    (∀ (st : BWNStore) (id : Int) (data : List Prim) (user : UserInfo) (f : List Nat)
      (v : GoValue),
      storeGet (be8 id) st = some data →
      BinaryWithNamesStrategy.decodeBinaryWithNames data = .ok user →
      f ∉ [ascii "username", ascii "email", ascii "first_name", ascii "last_name",
           ascii "description", ascii "age", ascii "height", ascii "weight",
           ascii "login_count", ascii "balance", ascii "score", ascii "is_active",
           ascii "created_at", ascii "updated_at"] →
      BinaryWithNamesStrategy.UpdateField st id f v = .err .unsupportedField) := by
  refine ⟨fun st id f v h1 h2 h3 => ?_, fun st u id f v hs hg ht h1 h2 h3 => ?_,
    fun st id data user f v hg hd hmem => ?_⟩
  · simp [MultiKVStrategy.UpdateField, h1, h2, h3]
  · unfold BinaryStrategy.UpdateField
    simp only [hg, decodeBinary_encodeBinary u ht, h1, h2, h3, if_false]
    rw [storePut_self _ _ _ hs hg]
  · unfold BinaryWithNamesStrategy.UpdateField
    simp only [hg, hd]
    simp only [List.mem_cons, List.mem_singleton, not_or] at hmem
    obtain ⟨n1, n2, n3, n4, n5, n6, n7, n8, n9, n10, n11, n12, n13, n14⟩ := hmem
    simp [BinaryWithNamesStrategy.applyUpdate, n1, n2, n3, n4, n5, n6, n7, n8, n9, n10,
      n11, n12, n13, n14]

/-- C7 witness: the amended statements at concrete stores, id 1, and the
unsupported field name "nickname". -/
theorem C7_witness :
    MultiKVStrategy.UpdateField ([] : MKVStore) 1 (ascii "nickname") (.vF64 0) = .ok [] ∧
    BinaryStrategy.UpdateField (BinaryStrategy.Write [] sampleUser) 1 (ascii "nickname")
      (.vF64 0) = .ok (BinaryStrategy.Write [] sampleUser) ∧
    BinaryWithNamesStrategy.UpdateField (BinaryWithNamesStrategy.Write [] sampleUser) 1
      (ascii "nickname") (.vF64 0) = .err .unsupportedField :=
  ⟨C7_unsupported_field.1 [] 1 (ascii "nickname") (.vF64 0)
      (by decide) (by decide) (by decide),
   C7_unsupported_field.2.1 (BinaryStrategy.Write [] sampleUser) sampleUser 1
      (ascii "nickname") (.vF64 0) (by decide) (by decide) (by decide)
      (by decide) (by decide) (by decide),
   C7_unsupported_field.2.2 (BinaryWithNamesStrategy.Write [] sampleUser) 1
      (BinaryWithNamesStrategy.encodeBinaryWithNames sampleUser) sampleUser
      (ascii "nickname") (.vF64 0) (by decide) (by decide) (by decide)⟩

/-! ## Claim C8: Read on malformed stored bytes -/

/-- C8 counterexample: in the Binary layout, reading a record whose stored
bytes are a malformed one-byte blob returns the zero-filled record with a nil
error — `decodeBinary` discards every read error and never reports
DecodeError. -/
theorem C8_counterexample :
    BinaryStrategy.Read [(be8 1, [Prim.pByte 1])] 1 = .ok zeroUser := by decide

/-- C8 amended: on malformed stored bytes the Binary layout's `Read` returns a
zero/partially-filled record with a nil error (its decoder ignores all read
errors), while the Binary+Names layout's `Read` does fail with a DecodeError
(here: the field-count read fails). -/
theorem C8_decode_malformed :
    (∀ (st : BinStore) (id : Int), storeGet (be8 id) st = some [Prim.pByte 1] →
      BinaryStrategy.Read st id = .ok zeroUser) ∧
    (∀ (st : BWNStore) (id : Int) (data : List Prim), storeGet (be8 id) st = some data →
      (rdI32 data).1 = none →
      BinaryWithNamesStrategy.Read st id = .err .decodeErr) := by
  constructor
  · intro st id h
    unfold BinaryStrategy.Read
    rw [h]
    decide
  · intro st id data h1 h2
    unfold BinaryWithNamesStrategy.Read
    simp only [h1]
    unfold BinaryWithNamesStrategy.decodeBinaryWithNames
    rcases hp : rdI32 data with ⟨o, r⟩
    rw [hp] at h2
    simp only at h2
    simp [hp, h2]

/-- C8 witness: the amended statements at a store holding the one-byte blob
under id 9. -/
theorem C8_witness :
    BinaryStrategy.Read [(be8 9, [Prim.pByte 1])] 9 = .ok zeroUser ∧
    BinaryWithNamesStrategy.Read [(be8 9, [Prim.pByte 1])] 9 = .err .decodeErr :=
  ⟨C8_decode_malformed.1 [(be8 9, [Prim.pByte 1])] 9 (by decide),
   C8_decode_malformed.2 [(be8 9, [Prim.pByte 1])] 9 [Prim.pByte 1]
      (by decide) (by decide)⟩

/-! ## Claim C9: StrategyVariant dispatch and delegation -/

/-- C9: `WriteAll` dispatches on the `Bulk` flag — one `WriteMany` call when
bulk, one `Write` per record in order otherwise — and for each modelled
strategy the two modes build identical final store contents; `Read`,
`ReadMany`, `UpdateField` and `ReadFieldSum` delegate unchanged to the
wrapped strategy. -/
theorem C9_variant {σ : Type} (S : Strategy σ) (b : Bool) (st : σ) (users : List UserInfo)
    (id startId : Int) (count : Nat) (f : List Nat) (v : GoValue) :
    (StrategyVariant.WriteAll ⟨S, true⟩ st users = S.writeMany st users) ∧
    (StrategyVariant.WriteAll ⟨S, false⟩ st users = users.foldl S.write st) ∧
    (StrategyVariant.Read ⟨S, b⟩ st id = S.read st id) ∧
    (StrategyVariant.ReadMany ⟨S, b⟩ st startId count = S.readMany st startId count) ∧
    (StrategyVariant.UpdateField ⟨S, b⟩ st id f v = S.updateField st id f v) ∧
    (StrategyVariant.ReadFieldSum ⟨S, b⟩ st f count = S.readFieldSum st f count) ∧
    (∀ (bst : BinStore) (us : List UserInfo),
      StrategyVariant.WriteAll ⟨BinaryStrategy.strategy, true⟩ bst us =
        StrategyVariant.WriteAll ⟨BinaryStrategy.strategy, false⟩ bst us) ∧
    (∀ (mst : MKVStore) (us : List UserInfo),
      StrategyVariant.WriteAll ⟨MultiKVStrategy.strategy, true⟩ mst us =
        StrategyVariant.WriteAll ⟨MultiKVStrategy.strategy, false⟩ mst us) ∧
    (∀ (wst : BWNStore) (us : List UserInfo),
      StrategyVariant.WriteAll ⟨BinaryWithNamesStrategy.strategy, true⟩ wst us =
        StrategyVariant.WriteAll ⟨BinaryWithNamesStrategy.strategy, false⟩ wst us) :=
  ⟨rfl, rfl, rfl, rfl, rfl, rfl, fun _ _ => rfl, fun _ _ => rfl, fun _ _ => rfl⟩

/-! ## Claim C10: the shape of a MultiKV write -/

/-- The first eight bytes of a MultiKV field key are the record id. -/
theorem take8_makeKey (id : Int) (name : List Nat) :
    (MultiKVStrategy.makeKey id name).take 8 = be8 id := by
  unfold MultiKVStrategy.makeKey
  rw [show (8 : Nat) = (be8 id).length from (be8_length id).symm, List.take_left]

/-- The lookup table of a bucket after one MultiKV `Write`: exactly the
fifteen field keys are (re)bound, every other key keeps its binding. -/
theorem multiKV_write_get (st : MKVStore) (u : UserInfo) (k : List Nat) :
    storeGet k (MultiKVStrategy.Write st u) =
      if k = MultiKVStrategy.makeKey u.ID (ascii "description") then some u.Description
      else if k = MultiKVStrategy.makeKey u.ID (ascii "score") then
        some (leW 8 (goUint64OfFloat u.Score))
      else if k = MultiKVStrategy.makeKey u.ID (ascii "login_count") then
        some (formatInt u.LoginCount)
      else if k = MultiKVStrategy.makeKey u.ID (ascii "updated_at") then
        some (formatInt u.UpdatedAt)
      else if k = MultiKVStrategy.makeKey u.ID (ascii "created_at") then
        some (formatInt u.CreatedAt)
      else if k = MultiKVStrategy.makeKey u.ID (ascii "is_active") then
        some (if u.IsActive then ascii "true" else ascii "false")
      else if k = MultiKVStrategy.makeKey u.ID (ascii "balance") then
        some (leW 8 (goUint64OfFloat u.Balance))
      else if k = MultiKVStrategy.makeKey u.ID (ascii "weight") then
        some (leW 4 (goUint32OfFloat u.Weight))
      else if k = MultiKVStrategy.makeKey u.ID (ascii "height") then
        some (leW 4 (goUint32OfFloat u.Height))
      else if k = MultiKVStrategy.makeKey u.ID (ascii "age") then some (formatInt u.Age)
      else if k = MultiKVStrategy.makeKey u.ID (ascii "last_name") then some u.LastName
      else if k = MultiKVStrategy.makeKey u.ID (ascii "first_name") then some u.FirstName
      else if k = MultiKVStrategy.makeKey u.ID (ascii "email") then some u.Email
      else if k = MultiKVStrategy.makeKey u.ID (ascii "username") then some u.Username
      else if k = MultiKVStrategy.makeKey u.ID (ascii "id") then some (formatInt u.ID)
      else storeGet k st := by
  simp only [MultiKVStrategy.Write, MultiKVStrategy.writeUserFields, storeGet_storePut]

/-- C10: a MultiKV `Write` binds exactly the fifteen keys
`big-endian id ++ field name` (one per field, to the field's encoded payload)
and touches no key whose 8-byte id prefix differs from the record's id. -/
theorem C10_write_shape (st : MKVStore) (u : UserInfo) (k : List Nat) :
    (storeGet k (MultiKVStrategy.Write st u) =
      if k = MultiKVStrategy.makeKey u.ID (ascii "description") then some u.Description
      else if k = MultiKVStrategy.makeKey u.ID (ascii "score") then
        some (leW 8 (goUint64OfFloat u.Score))
      else if k = MultiKVStrategy.makeKey u.ID (ascii "login_count") then
        some (formatInt u.LoginCount)
      else if k = MultiKVStrategy.makeKey u.ID (ascii "updated_at") then
        some (formatInt u.UpdatedAt)
      else if k = MultiKVStrategy.makeKey u.ID (ascii "created_at") then
        some (formatInt u.CreatedAt)
      else if k = MultiKVStrategy.makeKey u.ID (ascii "is_active") then
        some (if u.IsActive then ascii "true" else ascii "false")
      else if k = MultiKVStrategy.makeKey u.ID (ascii "balance") then
        some (leW 8 (goUint64OfFloat u.Balance))
      else if k = MultiKVStrategy.makeKey u.ID (ascii "weight") then
        some (leW 4 (goUint32OfFloat u.Weight))
      else if k = MultiKVStrategy.makeKey u.ID (ascii "height") then
        some (leW 4 (goUint32OfFloat u.Height))
      else if k = MultiKVStrategy.makeKey u.ID (ascii "age") then some (formatInt u.Age)
      else if k = MultiKVStrategy.makeKey u.ID (ascii "last_name") then some u.LastName
      else if k = MultiKVStrategy.makeKey u.ID (ascii "first_name") then some u.FirstName
      else if k = MultiKVStrategy.makeKey u.ID (ascii "email") then some u.Email
      else if k = MultiKVStrategy.makeKey u.ID (ascii "username") then some u.Username
      else if k = MultiKVStrategy.makeKey u.ID (ascii "id") then some (formatInt u.ID)
      else storeGet k st) ∧
    (k.take 8 ≠ be8 u.ID → storeGet k (MultiKVStrategy.Write st u) = storeGet k st) := by
  refine ⟨multiKV_write_get st u k, fun hk => ?_⟩
  have hne : ∀ name, ¬ (k = MultiKVStrategy.makeKey u.ID name) := by
    intro name heq
    exact hk (by rw [heq, take8_makeKey])
  rw [multiKV_write_get st u k]
  simp [hne]

/-- C10 witness: the frame half at a key whose prefix is not the sample
record's id. -/
theorem C10_witness :
    ([7] : List Nat).take 8 ≠ be8 sampleUser.ID ∧
    storeGet [7] (MultiKVStrategy.Write [] sampleUser) = storeGet [7] ([] : MKVStore) :=
  ⟨by decide, (C10_write_shape [] sampleUser [7]).2 (by decide)⟩

/-! ## Claim C4: aggregate correctness of ReadFieldSum -/

/-- Fixed-width big-endian byte strings compare like their values. -/
theorem keyLtB_beW : ∀ (w a b : Nat), a < b → b < 256 ^ w →
    keyLtB (beW w a) (beW w b) = true := by
  intro w
  induction w with
  | zero =>
    intro a b hab hb
    simp [pow_zero] at hb
    omega
  | succ w ih =>
    intro a b hab hb
    have hd : a / 256 ^ w ≤ b / 256 ^ w := Nat.div_le_div_right (le_of_lt hab)
    by_cases hlt : a / 256 ^ w < b / 256 ^ w
    · simp [beW, keyLtB, hlt]
    · have heq : a / 256 ^ w = b / 256 ^ w := le_antisymm hd (not_lt.mp hlt)
      have hmod : a % 256 ^ w < b % 256 ^ w := by
        have ha := Nat.div_add_mod a (256 ^ w)
        have hb2 := Nat.div_add_mod b (256 ^ w)
        rw [heq] at ha
        omega
      have hbw : b % 256 ^ w < 256 ^ w :=
        Nat.mod_lt _ (pow_pos (by norm_num) w)
      simp [beW, keyLtB, heq, ih _ _ hmod hbw]

theorem wrapU64_toNat {i : Int} (h0 : 0 ≤ i) (h1 : i < 2 ^ 64) : wrapU64 i = i.toNat := by
  unfold wrapU64
  rw [Int.emod_eq_of_lt h0 h1]

/-- The big-endian id keys are strictly monotone on ids below `2^64`. -/
theorem keyLtB_be8 {i j : Int} (h0 : 0 ≤ i) (hij : i < j) (hj : j < 2 ^ 64) :
    keyLtB (be8 i) (be8 j) = true := by
  have h0j : 0 ≤ j := le_trans h0 (le_of_lt hij)
  unfold be8
  rw [wrapU64_toNat h0 (lt_trans hij hj), wrapU64_toNat h0j hj]
  apply keyLtB_beW
  · omega
  · have h28 : (256 : Nat) ^ 8 = 2 ^ 64 := by norm_num
    rw [h28]
    omega

/-- Writing records with strictly increasing keys into a bucket whose keys all
precede them appends the encoded records in order. -/
theorem writeMany_map (users : List UserInfo) : ∀ (st : BinStore),
    (∀ e ∈ st, ∀ u ∈ users, keyLtB e.1 (be8 u.ID) = true) →
    users.Pairwise (fun a b => keyLtB (be8 a.ID) (be8 b.ID) = true) →
    BinaryStrategy.WriteMany st users =
      st ++ users.map (fun u => (be8 u.ID, BinaryStrategy.encodeBinary u)) := by
  induction users with
  | nil =>
    intro st _ _
    simp [BinaryStrategy.WriteMany]
  | cons u us ih =>
    intro st hst hord
    have step : BinaryStrategy.WriteMany st (u :: us) =
        BinaryStrategy.WriteMany (storePut (be8 u.ID) (BinaryStrategy.encodeBinary u) st) us :=
      rfl
    rw [step, storePut_append _ _ _ (fun e he => hst e he u (List.mem_cons_self u us))]
    have hst2 : ∀ e ∈ st ++ [(be8 u.ID, BinaryStrategy.encodeBinary u)], ∀ v ∈ us,
        keyLtB e.1 (be8 v.ID) = true := by
      intro e he v hv
      rcases List.mem_append.mp he with h | h
      · exact hst e h v (List.mem_cons_of_mem u hv)
      · simp only [List.mem_singleton] at h
        subst h
        exact (List.pairwise_cons.mp hord).1 v hv
    rw [ih _ hst2 (List.pairwise_cons.mp hord).2]
    simp

/-- The Binary `ReadFieldSum` loop over a list of encoded records adds up the
balances, left to right, when the budget covers the list. -/
theorem rfs_balance (users : List UserInfo) : ∀ (budget : Nat) (acc : Fl),
    (∀ u ∈ users, textOk u) → users.length ≤ budget →
    BinaryStrategy.RFSLoop (ascii "balance")
      (users.map fun u => (be8 u.ID, BinaryStrategy.encodeBinary u)) budget acc =
      .ok (users.foldl (fun s u => s + u.Balance) acc) := by
  induction users with
  | nil =>
    intro budget acc _ _
    cases budget <;> simp [BinaryStrategy.RFSLoop]
  | cons u us ih =>
    intro budget acc htext hlen
    cases budget with
    | zero => simp at hlen
    | succ n =>
      have hdec := decodeBinary_encodeBinary u (htext u (List.mem_cons_self u us))
      simp only [List.map_cons, BinaryStrategy.RFSLoop, hdec, List.foldl_cons]
      simp only [eq_self_iff_true, if_true]
      exact ih n (acc + u.Balance) (fun v hv => htext v (List.mem_cons_of_mem u hv))
        (Nat.le_of_succ_le_succ hlen)

/-- C4 counterexample: on the spec's dataset the Binary layout returns exactly
125.0 — the true exact sum of 10.5, 20.25, 0, −5.75 and 100 — not the claimed
124.0. -/
theorem C4_counterexample :
    BinaryStrategy.ReadFieldSum (BinaryStrategy.WriteMany [] dataset5) (ascii "balance") 5 =
      .ok ⟨125, 0⟩ ∧ (⟨125, 0⟩ : Fl) ≠ ⟨124, 0⟩ := by decide

/-- C4 amended: in the Binary layout, `ReadFieldSum(store, "balance", N)` over
`N` freshly written records (increasing ids, text fields within the int32
length bound, float64 balances of magnitude below `2^1000`, `N ≤ 2^20`) is
the left-to-right float64 sum of their balances — each addition is the exact
sum rounded to nearest, ties to even, and under these bounds that is exactly
what Go's `sum += user.Balance` computes; on the spec's 5-record dataset
every partial sum is exactly representable and the result is exactly 125.0. -/
theorem C4_balance_sum :
    (∀ users : List UserInfo, idsOk users →
      BinaryStrategy.ReadFieldSum (BinaryStrategy.WriteMany [] users) (ascii "balance")
        users.length = .ok (users.foldl (fun s u => s + u.Balance) 0)) ∧
    BinaryStrategy.ReadFieldSum (BinaryStrategy.WriteMany [] dataset5) (ascii "balance") 5 =
      .ok ⟨125, 0⟩ := by
  constructor
  · intro users h
    obtain ⟨hpw, hlen, hb⟩ := h
    have hord : users.Pairwise (fun a b => keyLtB (be8 a.ID) (be8 b.ID) = true) := by
      refine List.Pairwise.imp_of_mem ?_ hpw
      intro a b ha hb2 hlt
      exact keyLtB_be8 (hb a ha).1 hlt (hb b hb2).2.1
    unfold BinaryStrategy.ReadFieldSum
    rw [writeMany_map users [] (by simp) hord, List.nil_append]
    exact rfs_balance users users.length 0 (fun u hu => (hb u hu).2.2.1) le_rfl
  · decide

/-- C4 witness: the amended general statement applied to the spec's dataset. -/
theorem C4_witness :
    idsOk dataset5 ∧
    BinaryStrategy.ReadFieldSum (BinaryStrategy.WriteMany [] dataset5) (ascii "balance")
      dataset5.length = .ok (dataset5.foldl (fun s u => s + u.Balance) 0) :=
  ⟨by decide, C4_balance_sum.1 dataset5 (by decide)⟩
end BoltBench
